import Mathlib

/-
Shallow embedding of the Sleek Countdown timer engine (src/App.tsx, the main
variant with days/pause/resume, which the design notes designate as canonical).
React `useState` hooks become fields of an explicit state record; event
handlers and the interval callback become state-transition functions; the
`useMemo` derivations become pure functions. JavaScript number arithmetic on
the integer-valued state is modelled by Nat, and the fractional percentage
arithmetic of the `progress` memo by exact rationals.
-/

/-- The configured countdown span: the `time` state object
`{days, hours, minutes, seconds}`. -/
structure Duration where
  days : Nat
  hours : Nat
  minutes : Nat
  seconds : Nat
deriving DecidableEq, Repr

/-- Total seconds of a duration, the sum computed in `handleStart`:
`time.days * 86400 + time.hours * 3600 + time.minutes * 60 + time.seconds`. -/
def Duration.toTotalSeconds (d : Duration) : Nat :=
  d.days * 86400 + d.hours * 3600 + d.minutes * 60 + d.seconds

/-- The `canStart` memo:
`time.days > 0 || time.hours > 0 || time.minutes > 0 || time.seconds > 0`. -/
def Duration.canStart (d : Duration) : Bool :=
  decide (0 < d.days) || decide (0 < d.hours) ||
    decide (0 < d.minutes) || decide (0 < d.seconds)

/-- The React state of the `App` component: the configured `time` plus the
five timer hooks `totalSeconds`, `initialTotalSeconds`, `isActive`,
`isPaused`, `isFinished`. -/
structure AppState where
  time : Duration
  totalSeconds : Nat
  initialTotalSeconds : Nat
  isActive : Bool
  isPaused : Bool
  isFinished : Bool
deriving DecidableEq, Repr

/-- The initial hook values: `time = {days:0, hours:0, minutes:1, seconds:30}`,
both counters 0, all flags false. -/
def initialState : AppState :=
  { time := ⟨0, 0, 1, 30⟩, totalSeconds := 0, initialTotalSeconds := 0,
    isActive := false, isPaused := false, isFinished := false }

/-- Whether the tick interval is installed: the interval `useEffect` runs
`setInterval` exactly when `isActive && !isPaused`, and its cleanup clears the
interval as soon as that condition fails. -/
def tickSourceActive (s : AppState) : Bool :=
  s.isActive && !s.isPaused

/-- One firing of the interval callback. When the interval is installed
(`isActive && !isPaused`) it runs
`setTotalSeconds(prev => prev <= 1 ? 0 : prev - 1)`, clearing the interval and
setting `isActive := false`, `isFinished := true` on the `prev <= 1` branch;
when no interval is installed, no tick is delivered and the state is
untouched. -/
def tick (s : AppState) : AppState :=
  if s.isActive && !s.isPaused then
    if s.totalSeconds ≤ 1 then
      { s with totalSeconds := 0, isActive := false, isFinished := true }
    else
      { s with totalSeconds := s.totalSeconds - 1 }
  else s

/-- `handleStart`: computes
`seconds = time.days*86400 + time.hours*3600 + time.minutes*60 + time.seconds`;
when positive it snapshots that value into both `totalSeconds` and
`initialTotalSeconds` and sets `isActive := true`, `isPaused := false`,
`isFinished := false`; otherwise it does nothing. -/
def handleStart (s : AppState) : AppState :=
  let seconds := s.time.days * 86400 + s.time.hours * 3600 +
    s.time.minutes * 60 + s.time.seconds
  if 0 < seconds then
    { s with totalSeconds := seconds, initialTotalSeconds := seconds,
             isActive := true, isPaused := false, isFinished := false }
  else s

/-- `handlePauseResume`: `setIsPaused(!isPaused)`. -/
def handlePauseResume (s : AppState) : AppState :=
  { s with isPaused := !s.isPaused }

/-- `handleReset`: clears the three flags and zeroes `totalSeconds` and
`initialTotalSeconds`; the `time` inputs are left as configured (the reset of
the inputs is commented out in the source). -/
def handleReset (s : AppState) : AppState :=
  { s with isActive := false, isPaused := false, isFinished := false,
           totalSeconds := 0, initialTotalSeconds := 0 }

/-- The four integer display values produced by the `timeLeft` memo. -/
structure TimeBreakdown where
  days : Nat
  hours : Nat
  minutes : Nat
  seconds : Nat
deriving DecidableEq, Repr

/-- The `timeLeft` memo: the floor-division / modulo chain on
`totalSeconds`. -/
def timeLeft (totalSeconds : Nat) : TimeBreakdown :=
  { days := totalSeconds / 86400
    hours := totalSeconds % 86400 / 3600
    minutes := totalSeconds % 3600 / 60
    seconds := totalSeconds % 60 }

/-- The four ring percentages produced by the `progress` memo, as exact
rationals. -/
structure ProgressPct where
  days : ℚ
  hours : ℚ
  minutes : ℚ
  seconds : ℚ
deriving DecidableEq, Repr

/-- The `progress` memo. Returns all zeros when `initialTotalSeconds <= 0`;
otherwise the days ring is global
(`daysForProgress / initialTotalDays * 100`, itself guarded by
`initialTotalDays > 0`) while the hours/minutes/seconds rings are local to
their containing unit. The memo's fractional number arithmetic on integer
inputs is modelled exactly by rational arithmetic. -/
def progress (totalSeconds initialTotalSeconds : Nat) : ProgressPct :=
  if initialTotalSeconds ≤ 0 then ⟨0, 0, 0, 0⟩
  else
    let daysForProgress : ℚ := (totalSeconds : ℚ) / 86400
    let hoursForProgress : ℚ := ((totalSeconds % 86400 : ℕ) : ℚ) / 3600
    let minutesForProgress : ℚ := ((totalSeconds % 3600 : ℕ) : ℚ) / 60
    let secondsForProgress : ℚ := ((totalSeconds % 60 : ℕ) : ℚ)
    let initialTotalDays : ℚ := (initialTotalSeconds : ℚ) / 86400
    let daysPercentage : ℚ :=
      if 0 < initialTotalDays then daysForProgress / initialTotalDays * 100
      else 0
    { days := daysPercentage
      hours := hoursForProgress / 24 * 100
      minutes := minutesForProgress / 60 * 100
      seconds := secondsForProgress / 60 * 100 }

/-- Modelled from the spec: the History Recorder collaborator is absent from
src/App.tsx (the engine only supplies the started Duration). Per the external
interface contract, `record(duration)` maintains an ordered most-recent-first
list, deduplicating by exact field equality (a re-added duration moves to the
front rather than duplicating), capped at 5 entries. -/
def record (d : Duration) (hist : List Duration) : List Duration :=
  (d :: hist.filter (fun e => e != d)).take 5

/-- Modelled from the spec: a successful `start` also records the started
duration with the History Recorder; a rejected start records nothing. -/
def startWithHistory (s : AppState) (hist : List Duration) :
    AppState × List Duration :=
  if 0 < s.time.toTotalSeconds then (handleStart s, record s.time hist)
  else (s, hist)

/-- Configure the duration inputs (the four `handleTimeChange` calls) and then
press Start, threading the history list. -/
def startDur (d : Duration) (p : AppState × List Duration) :
    AppState × List Duration :=
  startWithHistory { p.1 with time := d } p.2

/-
Helper lemmas shared by the claim theorems.
-/

/-- The sum computed inside `handleStart` is exactly `toTotalSeconds`. -/
theorem handleStart_eq (s : AppState) :
    handleStart s =
      if 0 < s.time.toTotalSeconds then
        { s with totalSeconds := s.time.toTotalSeconds,
                 initialTotalSeconds := s.time.toTotalSeconds,
                 isActive := true, isPaused := false, isFinished := false }
      else s := rfl

/-- A state with the interval uninstalled is a fixed point of `tick`. -/
theorem tick_fixed_of_not_active (s : AppState) (h : s.isActive = false) :
    tick s = s := by
  simp [tick, h]

/-- A paused state is a fixed point of `tick`. -/
theorem tick_fixed_of_paused (s : AppState) (h : s.isPaused = true) :
    tick s = s := by
  simp [tick, h]

/-- Counting down: from an active, unpaused state holding exactly `k ≥ 1`
seconds, `k` ticks reach the finished state with zero seconds left. -/
theorem tick_iterate_countdown (k : Nat) :
    ∀ s : AppState, s.isActive = true → s.isPaused = false →
      s.totalSeconds = k → 1 ≤ k →
      tick^[k] s =
        { s with totalSeconds := 0, isActive := false, isFinished := true } := by
  induction k with
  | zero => intro s _ _ _ hk; omega
  | succ k ih =>
    intro s hA hP hT _
    rcases Nat.eq_zero_or_pos k with hk | hk
    · subst hk
      have : tick s =
          { s with totalSeconds := 0, isActive := false, isFinished := true } := by
        simp [tick, hA, hP, hT]
      simpa [Function.iterate_one] using this
    · rw [Function.iterate_succ_apply]
      have hstep : tick s = { s with totalSeconds := k } := by
        have h1 : ¬ s.totalSeconds ≤ 1 := by omega
        simp [tick, hA, hP, h1, hT]
        omega
      rw [hstep]
      exact ih _ hA hP rfl hk

/-- C1: delivering one tick to a Running timer (`isActive`, not `isPaused`)
with `totalSeconds > 1` keeps it Running with `totalSeconds` decreased by
exactly 1; with `totalSeconds <= 1` it transitions to Finished with
`totalSeconds = 0` and the tick source stopped. -/
theorem tick_running_cases (s : AppState)
    (hA : s.isActive = true) (hP : s.isPaused = false) :
    (1 < s.totalSeconds →
      (tick s).totalSeconds = s.totalSeconds - 1 ∧
      (tick s).isActive = true ∧ (tick s).isPaused = false ∧
      (tick s).isFinished = s.isFinished) ∧
    (s.totalSeconds ≤ 1 →
      (tick s).isFinished = true ∧ (tick s).isActive = false ∧
      (tick s).totalSeconds = 0 ∧ tickSourceActive (tick s) = false) := by
  constructor
  · intro h
    have h1 : ¬ s.totalSeconds ≤ 1 := by omega
    simp [tick, hA, hP, h1]
  · intro h
    simp [tick, tickSourceActive, hA, hP, h]

/-- Witness for C1 at the concrete started initial state (90 seconds). -/
theorem tick_running_cases_witness :
    (handleStart initialState).isActive = true ∧
    (handleStart initialState).isPaused = false ∧
    ((1 < (handleStart initialState).totalSeconds →
      (tick (handleStart initialState)).totalSeconds =
        (handleStart initialState).totalSeconds - 1 ∧
      (tick (handleStart initialState)).isActive = true ∧
      (tick (handleStart initialState)).isPaused = false ∧
      (tick (handleStart initialState)).isFinished =
        (handleStart initialState).isFinished) ∧
    ((handleStart initialState).totalSeconds ≤ 1 →
      (tick (handleStart initialState)).isFinished = true ∧
      (tick (handleStart initialState)).isActive = false ∧
      (tick (handleStart initialState)).totalSeconds = 0 ∧
      tickSourceActive (tick (handleStart initialState)) = false)) :=
  ⟨by decide, by decide,
    tick_running_cases (handleStart initialState) (by decide) (by decide)⟩

/-- C2: starting with a duration of `T > 0` total seconds and delivering
exactly `T` ticks reaches Finished with `totalSeconds = 0`, and any number of
further ticks leaves the state unchanged. -/
theorem start_then_ticks_finishes (s : AppState)
    (h : 0 < s.time.toTotalSeconds) :
    (tick^[s.time.toTotalSeconds] (handleStart s)).isFinished = true ∧
    (tick^[s.time.toTotalSeconds] (handleStart s)).isActive = false ∧
    (tick^[s.time.toTotalSeconds] (handleStart s)).totalSeconds = 0 ∧
    ∀ n : Nat,
      tick^[n] (tick^[s.time.toTotalSeconds] (handleStart s)) =
        tick^[s.time.toTotalSeconds] (handleStart s) := by
  have hs : handleStart s =
      { s with totalSeconds := s.time.toTotalSeconds,
               initialTotalSeconds := s.time.toTotalSeconds,
               isActive := true, isPaused := false, isFinished := false } := by
    rw [handleStart_eq, if_pos h]
  have hfin := tick_iterate_countdown s.time.toTotalSeconds (handleStart s)
    (by rw [hs]) (by rw [hs]) (by rw [hs]) h
  refine ⟨by rw [hfin], by rw [hfin], by rw [hfin], ?_⟩
  intro n
  apply Function.iterate_fixed
  apply tick_fixed_of_not_active
  rw [hfin]

/-- Witness for C2 at the concrete initial state (duration 0d 0h 1m 30s,
90 total seconds). -/
theorem start_then_ticks_finishes_witness :
    0 < initialState.time.toTotalSeconds ∧
    ((tick^[initialState.time.toTotalSeconds]
        (handleStart initialState)).isFinished = true ∧
     (tick^[initialState.time.toTotalSeconds]
        (handleStart initialState)).isActive = false ∧
     (tick^[initialState.time.toTotalSeconds]
        (handleStart initialState)).totalSeconds = 0 ∧
     ∀ n : Nat,
       tick^[n] (tick^[initialState.time.toTotalSeconds]
          (handleStart initialState)) =
         tick^[initialState.time.toTotalSeconds] (handleStart initialState)) :=
  ⟨by decide, start_then_ticks_finishes initialState (by decide)⟩

/-- C7: `handleReset` from any state yields Idle (`isActive`, `isPaused`,
`isFinished` all false) with both counters zero and the tick source stopped,
and a subsequent start behaves identically to a start on a fresh engine
configured with the same duration. -/
theorem reset_from_any_state (s : AppState) :
    (handleReset s).isActive = false ∧ (handleReset s).isPaused = false ∧
    (handleReset s).isFinished = false ∧ (handleReset s).totalSeconds = 0 ∧
    (handleReset s).initialTotalSeconds = 0 ∧
    tickSourceActive (handleReset s) = false ∧
    handleStart (handleReset s) =
      handleStart { initialState with time := s.time } :=
  ⟨rfl, rfl, rfl, rfl, rfl, rfl, rfl⟩

/-- C8: pause, then any number of ticks, then resume restores exactly the
pre-pause state; in particular `totalSeconds` is unaffected by ticks delivered
while Paused and resume does not reset it. -/
theorem pause_ticks_resume (s : AppState) (n : Nat)
    (hA : s.isActive = true) (hP : s.isPaused = false) :
    (tick^[n] (handlePauseResume s)).totalSeconds = s.totalSeconds ∧
    handlePauseResume (tick^[n] (handlePauseResume s)) = s := by
  have h1 : handlePauseResume s = { s with isPaused := true } := by
    simp [handlePauseResume, hP]
  have h2 : tick^[n] ({ s with isPaused := true } : AppState) =
      { s with isPaused := true } :=
    Function.iterate_fixed (tick_fixed_of_paused _ rfl) n
  rw [h1, h2]
  refine ⟨rfl, ?_⟩
  simp [handlePauseResume]
  cases s
  simp at hP
  simp [hP]

/-- Witness for C8 with the concrete started initial state and 7 ticks while
paused. -/
theorem pause_ticks_resume_witness :
    (handleStart initialState).isActive = true ∧
    (handleStart initialState).isPaused = false ∧
    ((tick^[7] (handlePauseResume (handleStart initialState))).totalSeconds =
       (handleStart initialState).totalSeconds ∧
     handlePauseResume (tick^[7] (handlePauseResume (handleStart initialState)))
       = handleStart initialState) :=
  ⟨by decide, by decide,
    pause_ticks_resume (handleStart initialState) 7 (by decide) (by decide)⟩

/-- Unfolding of the `progress` memo for a nonzero initial total. -/
theorem progress_eq_pos (remaining initial : Nat) (h : initial ≠ 0) :
    progress remaining initial =
      { days := ((remaining : ℚ) / 86400) / ((initial : ℚ) / 86400) * 100
        hours := ((remaining % 86400 : ℕ) : ℚ) / 3600 / 24 * 100
        minutes := ((remaining % 3600 : ℕ) : ℚ) / 60 / 60 * 100
        seconds := ((remaining % 60 : ℕ) : ℚ) / 60 * 100 } := by
  have h0 : ¬ initial ≤ 0 := by omega
  have hpos : (0 : ℚ) < (initial : ℚ) / 86400 := by
    have : (0 : ℚ) < (initial : ℚ) := by
      exact_mod_cast Nat.pos_of_ne_zero h
    positivity
  simp [progress, h0, hpos]

/-- A ratio of nonnegative quantities scaled to a percentage stays within
[0, 100]. -/
theorem ratio_pct_bounds (a b : ℚ) (ha : 0 ≤ a) (hab : a ≤ b) (hb : 0 < b) :
    0 ≤ a / b * 100 ∧ a / b * 100 ≤ 100 := by
  constructor
  · positivity
  · have h1 : a / b ≤ 1 := (div_le_one hb).mpr hab
    nlinarith

/-- C3: for a nonzero initial total, `progress` computes the days percentage
globally as `(remaining/86400) / (initial/86400) * 100` and the hours, minutes
and seconds percentages locally against their containing unit, independent of
the initial total; for a zero initial total all four percentages are 0. -/
theorem progress_formulas (remaining initial : Nat) (h : initial ≠ 0) :
    progress remaining initial =
      { days := ((remaining : ℚ) / 86400) / ((initial : ℚ) / 86400) * 100
        hours := ((remaining % 86400 : ℕ) : ℚ) / 3600 / 24 * 100
        minutes := ((remaining % 3600 : ℕ) : ℚ) / 60 / 60 * 100
        seconds := ((remaining % 60 : ℕ) : ℚ) / 60 * 100 } ∧
    progress remaining 0 = ⟨0, 0, 0, 0⟩ :=
  ⟨progress_eq_pos remaining initial h, rfl⟩

/-- Witness for C3 at `remaining = 1800`, `initial = 7200`. -/
theorem progress_formulas_witness :
    (7200 : Nat) ≠ 0 ∧
    (progress 1800 7200 =
      { days := ((1800 : ℚ) / 86400) / ((7200 : ℚ) / 86400) * 100
        hours := ((1800 % 86400 : ℕ) : ℚ) / 3600 / 24 * 100
        minutes := ((1800 % 3600 : ℕ) : ℚ) / 60 / 60 * 100
        seconds := ((1800 % 60 : ℕ) : ℚ) / 60 * 100 } ∧
     progress 1800 0 = ⟨0, 0, 0, 0⟩) :=
  ⟨by decide, progress_formulas 1800 7200 (by decide)⟩

set_option maxRecDepth 10000 in
/-- C4: `timeLeft` is the stated floor-division/modulo chain, the duration
0d 0h 1m 30s totals 90 seconds, after 89 ticks from start the breakdown is
{0,0,0,1}, and after 90 ticks the state is Finished with breakdown
{0,0,0,0}. -/
theorem timeLeft_formula_and_example :
    (∀ n : Nat, timeLeft n =
      { days := n / 86400, hours := n % 86400 / 3600,
        minutes := n % 3600 / 60, seconds := n % 60 }) ∧
    Duration.toTotalSeconds ⟨0, 0, 1, 30⟩ = 90 ∧
    timeLeft (tick^[89] (handleStart initialState)).totalSeconds =
      ⟨0, 0, 0, 1⟩ ∧
    (tick^[90] (handleStart initialState)).isFinished = true ∧
    timeLeft (tick^[90] (handleStart initialState)).totalSeconds =
      ⟨0, 0, 0, 0⟩ :=
  ⟨fun _ => rfl, rfl, by decide, by decide, by decide⟩

/-- C5 as stated is false: at `initialTotalSeconds = 7200` and
`remainingSeconds = 1800` the days percentage computed by the code is 25
(the global fraction of the run remaining, via real division), not 0. -/
theorem progress_example_days_not_zero :
    (progress 1800 7200).days ≠ 0 := by
  norm_num [progress]

/-- C5 amended: at `initialTotalSeconds = 7200`, `remainingSeconds = 1800`,
the hours percentage is `(1800/3600)/24*100 = 25/12` (≈ 2.08) and the days
percentage is `(1800/7200)*100 = 25`. -/
theorem progress_example_values :
    (progress 1800 7200).hours = 25 / 12 ∧ (progress 1800 7200).days = 25 := by
  constructor <;> norm_num [progress]

/-- C6: `canStart` is true exactly when the duration's total seconds is
positive, and `handleStart` on a state whose duration cannot start is a
silent no-op leaving the whole state unchanged. -/
theorem canStart_iff_and_start_noop :
    (∀ d : Duration, d.canStart = true ↔ 0 < d.toTotalSeconds) ∧
    (∀ s : AppState, s.time.canStart = false → handleStart s = s) := by
  constructor
  · intro d
    simp [Duration.canStart, Duration.toTotalSeconds]
  · intro s h
    simp [Duration.canStart] at h
    have h0 : ¬ (0 < s.time.days * 86400 + s.time.hours * 3600 +
        s.time.minutes * 60 + s.time.seconds) := by omega
    simp [handleStart, h0]

/-- Witness for C6 at the all-zero duration. -/
theorem canStart_iff_and_start_noop_witness :
    Duration.canStart ⟨0, 0, 0, 0⟩ = false ∧
    handleStart { initialState with time := ⟨0, 0, 0, 0⟩ } =
      { initialState with time := ⟨0, 0, 0, 0⟩ } :=
  ⟨by decide,
    canStart_iff_and_start_noop.2 { initialState with time := ⟨0, 0, 0, 0⟩ }
      (by decide)⟩

/-- A successful configured start passes the history list through `record`. -/
theorem startDur_snd (d : Duration) (p : AppState × List Duration)
    (h : 0 < d.toTotalSeconds) :
    (startDur d p).2 = record d p.2 := by
  simp [startDur, startWithHistory, h]

/-- C9: spec-modelled History Recorder policy: starting six pairwise-distinct
startable durations in sequence leaves exactly the five most recent entries,
most-recent first, with the earliest evicted; and re-recording a duration
already present in a deduplicated history of at most 5 entries moves it to
the front without growing the list. -/
theorem history_policy (d1 d2 d3 d4 d5 d6 : Duration)
    (hnd : ([d1, d2, d3, d4, d5, d6] : List Duration).Nodup)
    (h1 : 0 < d1.toTotalSeconds) (h2 : 0 < d2.toTotalSeconds)
    (h3 : 0 < d3.toTotalSeconds) (h4 : 0 < d4.toTotalSeconds)
    (h5 : 0 < d5.toTotalSeconds) (h6 : 0 < d6.toTotalSeconds)
    (d : Duration) (hist : List Duration)
    (hd : d ∈ hist) (hh : hist.Nodup) (hlen : hist.length ≤ 5) :
    (startDur d6 (startDur d5 (startDur d4 (startDur d3 (startDur d2
        (startDur d1 (initialState, ([] : List Duration)))))))).2 =
      [d6, d5, d4, d3, d2] ∧
    (record d hist).length = hist.length ∧
    (record d hist).head? = some d := by
  refine ⟨?_, ?_⟩
  · simp [List.nodup_cons] at hnd
    rw [startDur_snd _ _ h6, startDur_snd _ _ h5, startDur_snd _ _ h4,
      startDur_snd _ _ h3, startDur_snd _ _ h2, startDur_snd _ _ h1]
    have h12 : d1 ≠ d2 := by tauto
    have h13 : d1 ≠ d3 := by tauto
    have h14 : d1 ≠ d4 := by tauto
    have h15 : d1 ≠ d5 := by tauto
    have h16 : d1 ≠ d6 := by tauto
    have h23 : d2 ≠ d3 := by tauto
    have h24 : d2 ≠ d4 := by tauto
    have h25 : d2 ≠ d5 := by tauto
    have h26 : d2 ≠ d6 := by tauto
    have h34 : d3 ≠ d4 := by tauto
    have h35 : d3 ≠ d5 := by tauto
    have h36 : d3 ≠ d6 := by tauto
    have h45 : d4 ≠ d5 := by tauto
    have h46 : d4 ≠ d6 := by tauto
    have h56 : d5 ≠ d6 := by tauto
    simp [record, h12, h13, h14, h15, h16, h23, h24, h25, h26, h34, h35, h36,
      h45, h46, h56]
  · have hfe : hist.filter (fun e => e != d) = hist.erase d :=
      (hh.erase_eq_filter d).symm
    have hlen1 : (hist.erase d).length = hist.length - 1 :=
      List.length_erase_of_mem hd
    have hpos : 0 < hist.length := List.length_pos_of_mem hd
    have hl2 : (d :: hist.erase d).length ≤ 5 := by
      simp [hlen1]; omega
    simp only [record, hfe, List.take_of_length_le hl2]
    constructor
    · simp [hlen1]; omega
    · rfl

/-- Witness for C9 with six concrete one-unit durations and a concrete
two-entry history. -/
theorem history_policy_witness :
    (([⟨1, 0, 0, 0⟩, ⟨0, 1, 0, 0⟩, ⟨0, 0, 1, 0⟩, ⟨0, 0, 0, 1⟩,
       ⟨0, 0, 0, 2⟩, ⟨0, 0, 0, 3⟩] : List Duration).Nodup ∧
     0 < Duration.toTotalSeconds ⟨1, 0, 0, 0⟩ ∧
     0 < Duration.toTotalSeconds ⟨0, 1, 0, 0⟩ ∧
     0 < Duration.toTotalSeconds ⟨0, 0, 1, 0⟩ ∧
     0 < Duration.toTotalSeconds ⟨0, 0, 0, 1⟩ ∧
     0 < Duration.toTotalSeconds ⟨0, 0, 0, 2⟩ ∧
     0 < Duration.toTotalSeconds ⟨0, 0, 0, 3⟩ ∧
     (⟨0, 0, 0, 2⟩ : Duration) ∈
       ([⟨0, 0, 0, 3⟩, ⟨0, 0, 0, 2⟩] : List Duration) ∧
     ([⟨0, 0, 0, 3⟩, ⟨0, 0, 0, 2⟩] : List Duration).Nodup ∧
     ([⟨0, 0, 0, 3⟩, ⟨0, 0, 0, 2⟩] : List Duration).length ≤ 5) ∧
    ((startDur ⟨0, 0, 0, 3⟩ (startDur ⟨0, 0, 0, 2⟩ (startDur ⟨0, 0, 0, 1⟩
        (startDur ⟨0, 0, 1, 0⟩ (startDur ⟨0, 1, 0, 0⟩ (startDur ⟨1, 0, 0, 0⟩
          (initialState, ([] : List Duration)))))))).2 =
      [⟨0, 0, 0, 3⟩, ⟨0, 0, 0, 2⟩, ⟨0, 0, 0, 1⟩, ⟨0, 0, 1, 0⟩, ⟨0, 1, 0, 0⟩] ∧
     (record ⟨0, 0, 0, 2⟩ [⟨0, 0, 0, 3⟩, ⟨0, 0, 0, 2⟩]).length =
       ([⟨0, 0, 0, 3⟩, ⟨0, 0, 0, 2⟩] : List Duration).length ∧
     (record ⟨0, 0, 0, 2⟩ [⟨0, 0, 0, 3⟩, ⟨0, 0, 0, 2⟩]).head? =
       some ⟨0, 0, 0, 2⟩) :=
  ⟨⟨by decide, by decide, by decide, by decide, by decide, by decide,
    by decide, by decide, by decide, by decide⟩,
    history_policy ⟨1, 0, 0, 0⟩ ⟨0, 1, 0, 0⟩ ⟨0, 0, 1, 0⟩ ⟨0, 0, 0, 1⟩
      ⟨0, 0, 0, 2⟩ ⟨0, 0, 0, 3⟩ (by decide) (by decide) (by decide) (by decide)
      (by decide) (by decide) (by decide) ⟨0, 0, 0, 2⟩
      [⟨0, 0, 0, 3⟩, ⟨0, 0, 0, 2⟩] (by decide) (by decide) (by decide)⟩

/-- C10: under the state invariant `remaining ≤ initial`, all four progress
percentages computed by the `progress` memo lie in the closed interval
[0, 100]. -/
theorem progress_in_range (remaining initial : Nat) (h : remaining ≤ initial) :
    (0 ≤ (progress remaining initial).days ∧
      (progress remaining initial).days ≤ 100) ∧
    (0 ≤ (progress remaining initial).hours ∧
      (progress remaining initial).hours ≤ 100) ∧
    (0 ≤ (progress remaining initial).minutes ∧
      (progress remaining initial).minutes ≤ 100) ∧
    (0 ≤ (progress remaining initial).seconds ∧
      (progress remaining initial).seconds ≤ 100) := by
  rcases Nat.eq_zero_or_pos initial with h0 | h0
  · subst h0
    simp [progress]
  · have hne : initial ≠ 0 := by omega
    have hiq : (0 : ℚ) < (initial : ℚ) := by exact_mod_cast h0
    rw [progress_eq_pos remaining initial hne]
    refine ⟨?_, ?_, ?_, ?_⟩
    · refine ratio_pct_bounds _ _ (by positivity) ?_ (by positivity)
      refine (div_le_div_iff_of_pos_right (by norm_num)).mpr ?_
      exact_mod_cast h
    · rw [div_div]
      refine ratio_pct_bounds _ _ (by positivity) ?_ (by norm_num)
      have hm : remaining % 86400 < 86400 := Nat.mod_lt _ (by norm_num)
      have hmq : ((remaining % 86400 : ℕ) : ℚ) < 86400 := by exact_mod_cast hm
      linarith
    · rw [div_div]
      refine ratio_pct_bounds _ _ (by positivity) ?_ (by norm_num)
      have hm : remaining % 3600 < 3600 := Nat.mod_lt _ (by norm_num)
      have hmq : ((remaining % 3600 : ℕ) : ℚ) < 3600 := by exact_mod_cast hm
      linarith
    · refine ratio_pct_bounds _ _ (by positivity) ?_ (by norm_num)
      have hm : remaining % 60 < 60 := Nat.mod_lt _ (by norm_num)
      have hmq : ((remaining % 60 : ℕ) : ℚ) < 60 := by exact_mod_cast hm
      linarith

/-- Witness for C10 at `remaining = 1800`, `initial = 7200`. -/
theorem progress_in_range_witness :
    (1800 : Nat) ≤ 7200 ∧
    ((0 ≤ (progress 1800 7200).days ∧ (progress 1800 7200).days ≤ 100) ∧
     (0 ≤ (progress 1800 7200).hours ∧ (progress 1800 7200).hours ≤ 100) ∧
     (0 ≤ (progress 1800 7200).minutes ∧
       (progress 1800 7200).minutes ≤ 100) ∧
     (0 ≤ (progress 1800 7200).seconds ∧
       (progress 1800 7200).seconds ≤ 100)) :=
  ⟨by decide, progress_in_range 1800 7200 (by decide)⟩
